import Mathlib

/-! # Verification of the sec_data_pipeline core

Shallow embedding of the repository's pipeline stages:

* extraction of one account's annual series
  (`clean_company_data` in `src/etl_pipeline.py` and `src/main.py`,
  `prep_data` / `get_df` in `src/scripts/data_cleaning.py`),
* the outer-join merge (`merge_final_df`),
* derived metrics (`add_extra_columns` in `src/etl_pipeline.py`,
  `add_valuation1_col` in `src/main.py`),
* the post-metrics column drop (`drop_unused_columns` in `src/main.py`
  and the `result.drop(columns=accounts_to_drop)` call in
  `process_financial_data` of `src/etl_pipeline.py`),
* the value formatter (`format_values`, one variant per file).

Modelling conventions:

* JSON dictionaries are association lists over `String` keys, looked up
  with `alookup`; a period-end date is a structured `Date` whose `year`
  field is the calendar year that `pd.to_datetime(df["end"]).dt.year`
  extracts.
* A one-account pandas DataFrame (columns `year`, `val`) is a `Series`:
  a list of `(year, value)` rows in frame order.  The merged frame is a
  `Table`: rows `(year, cells)` where a cell is `Option Int` and `none`
  is a pandas NaN produced by the outer join.  The row order produced
  here is "left rows first, then unmatched right rows"; no claim below
  depends on row order and `tableLookup` is insensitive to it.
* Cells seen by the metrics stage are `PVal`: a rational number, NaN,
  `+inf` or `-inf`.  Float arithmetic is modelled exactly over `ℚ` with
  IEEE special-value propagation as implemented by numpy elementwise
  operations (signed zero is identified with zero).  Python's
  `round(x, 2)` and the two-decimal string format are modelled with
  exact rational rounding half to even.
-/

/-- A calendar date; `pd.to_datetime(df["end"]).dt.year` reads the `year`
field. -/
structure Date where
  year : Nat
  month : Nat
  day : Nat
  deriving DecidableEq, Repr

/-- One XBRL fact record: period end date, reported value, fiscal period
tag ("FY", "Q1", ...).  Remaining filing metadata plays no role in the
cleaning code and is omitted. -/
structure FactRecord where
  endDate : Date
  val : Int
  fp : String
  deriving DecidableEq, Repr

/-- The JSON object stored for one account: its `units` dictionary,
mapping a unit name ("USD") to the list of fact records. -/
structure AccountData where
  units : List (String × List FactRecord)
  deriving DecidableEq

/-- A taxonomy object: account name to account object, as in
`json_file["facts"]["us-gaap"]`. -/
abbrev TaxObj := List (String × AccountData)

/-- The raw company-facts document: its `facts` dictionary, mapping a
taxonomy name ("us-gaap", "ifrs-full") to the taxonomy object. -/
structure Document where
  facts : List (String × TaxObj)
  deriving DecidableEq

/-- Dictionary lookup: `d[k]` succeeding iff the key is present. -/
def alookup {α : Type} (m : List (String × α)) (k : String) : Option α :=
  (m.find? (fun p => p.1 == k)).map Prod.snd

/-- A cleaned one-account DataFrame with columns `year`, `val`: rows in
frame order. -/
abbrev Series := List (Nat × Int)

/-- `df[df["fp"] == "FY"]`. -/
def filterFY (facts : List FactRecord) : List FactRecord :=
  facts.filter (fun f => f.fp == "FY")

/-- `df.drop_duplicates(subset=["year"], keep="last")`: a row survives
iff no later row has the same year; surviving rows keep their order. -/
def keepLastByYear : List (Nat × Int) → List (Nat × Int)
  | [] => []
  | r :: rest =>
    if rest.any (fun s => s.1 == r.1) then keepLastByYear rest
    else r :: keepLastByYear rest

/-- The cleaning core shared by all three extraction variants: filter to
annual records, key each record by the calendar year of its period end,
drop duplicate years keeping the last, and keep the `year`/`val`
columns. -/
def seriesOfFacts (facts : List FactRecord) : Series :=
  keepLastByYear ((filterFY facts).map (fun f => (f.endDate.year, f.val)))

/-- Year lookup in a one-account series (the first row carrying the
year; extraction output has unique years). -/
def alookupYear (s : Series) (y : Nat) : Option Int :=
  (s.find? (fun p => p.1 == y)).map Prod.snd

namespace EtlPipeline

/-- `json_file["facts"]["us-gaap"][account]["units"]["USD"]` — `some`
exactly when none of the three chained key accesses raises `KeyError`.
The wired pipeline consults only the `us-gaap` taxonomy. -/
def accFacts (json_file : Document) (account : String) :
    Option (List FactRecord) :=
  (alookup json_file.facts "us-gaap").bind fun tax =>
    (alookup tax account).bind fun acc =>
      alookup acc.units "USD"

/-- One loop iteration of `clean_company_data`: the cleaned frame, or
the empty DataFrame appended by the `except KeyError` branch.  (A
present account whose fact list is empty also yields an empty frame,
since `seriesOfFacts [] = []`.) -/
def extractAccount (json_file : Document) (account : String) : Series :=
  match accFacts json_file account with
  | some facts => seriesOfFacts facts
  | none => []

/-- `clean_company_data(json_file, account_list)` of
`src/etl_pipeline.py`: one appended frame per requested account, in
request order. -/
def clean_company_data (json_file : Document) :
    List String → List Series
  | [] => []
  | account :: rest =>
    extractAccount json_file account :: clean_company_data json_file rest

end EtlPipeline

/-- A row of the merged frame: the join key `year` and one cell per
merged account column, `none` being NaN. -/
abbrev Row := Nat × List (Option Int)

/-- The merged frame. -/
abbrev Table := List Row

/-- The cell list of the row keyed `y`, if such a row exists. -/
def tableLookup (t : Table) (y : Nat) : Option (List (Option Int)) :=
  (t.find? (fun r => r.1 == y)).map Prod.snd

/-- A one-account frame viewed as a one-column table. -/
def seriesToTable (s : Series) : Table :=
  s.map (fun p => (p.1, [some p.2]))

/-- Number of account columns of the accumulated frame (all rows have
the same cell count; taken from the first row). -/
def ncolsOf : Table → Nat
  | [] => 0
  | r :: _ => r.2.length

/-- `pd.merge(merged_df, cdf, on="year", how="outer")`: every left row
keeps its cells and gains the right value for its year (NaN if absent);
right rows whose year is unmatched are appended with NaN in every left
column. -/
def outerMerge (t : Table) (s : Series) : Table :=
  t.map (fun r => (r.1, r.2 ++ [alookupYear s r.1])) ++
    (s.filter (fun p => !(t.any (fun r => r.1 == p.1)))).map
      (fun p => (p.1, List.replicate (ncolsOf t) none ++ [some p.2]))

/-- How `merge_final_df` can fail.  The source raises `IndexError` from
`cleaned_df_list[0]` when the filtered list is empty; `emptyResult` is
the explicit error the specification prescribes instead, which the
source never produces. -/
inductive MergeError where
  | indexError
  | emptyResult
  deriving DecidableEq, Repr

/-- The merge fold `for cdf in cleaned_df_list[1:]`. -/
def mergeAll : Table → List Series → Table
  | t, [] => t
  | t, s :: rest => mergeAll (outerMerge t s) rest

/-- `merge_final_df(df_list)` of `src/etl_pipeline.py`: discard empty
frames, then fold the outer join starting from the first survivor.
(`src/main.py` differs only in also discarding the non-DataFrame `{}`
placeholders, which this embedding already represents as `[]`.) -/
def merge_final_df (df_list : List Series) : Except MergeError Table :=
  match df_list.filter (fun df => !df.isEmpty) with
  | [] => Except.error MergeError.indexError
  | first :: rest => Except.ok (mergeAll (seriesToTable first) rest)

/-- A pandas cell at the metrics stage: a (float) number modelled
exactly as a rational, NaN, or a signed infinity. -/
inductive PVal where
  | num (q : ℚ)
  | nan
  | inf
  | ninf
  deriving DecidableEq, Repr

/-- IEEE negation. -/
def pneg : PVal → PVal
  | .num q => .num (-q)
  | .nan => .nan
  | .inf => .ninf
  | .ninf => .inf

/-- IEEE addition (elementwise numpy `+`). -/
def padd : PVal → PVal → PVal
  | .nan, _ => .nan
  | _, .nan => .nan
  | .inf, .ninf => .nan
  | .ninf, .inf => .nan
  | .inf, _ => .inf
  | _, .inf => .inf
  | .ninf, _ => .ninf
  | _, .ninf => .ninf
  | .num a, .num b => .num (a + b)

/-- IEEE subtraction. -/
def psub (x y : PVal) : PVal := padd x (pneg y)

/-- IEEE multiplication. -/
def pmul : PVal → PVal → PVal
  | .nan, _ => .nan
  | _, .nan => .nan
  | .num a, .num b => .num (a * b)
  | .num a, .inf => if 0 < a then .inf else if a < 0 then .ninf else .nan
  | .num a, .ninf => if 0 < a then .ninf else if a < 0 then .inf else .nan
  | .inf, .num b => if 0 < b then .inf else if b < 0 then .ninf else .nan
  | .ninf, .num b => if 0 < b then .ninf else if b < 0 then .inf else .nan
  | .inf, .inf => .inf
  | .inf, .ninf => .ninf
  | .ninf, .inf => .ninf
  | .ninf, .ninf => .inf

/-- IEEE division as numpy performs it on float columns: a finite value
divided by zero is a signed infinity (NaN only for zero over zero) and
never raises.  Signed zero is identified with zero. -/
def pdiv : PVal → PVal → PVal
  | .nan, _ => .nan
  | _, .nan => .nan
  | .num a, .num b =>
    if b = 0 then (if 0 < a then .inf else if a < 0 then .ninf else .nan)
    else .num (a / b)
  | .num _, .inf => .num 0
  | .num _, .ninf => .num 0
  | .inf, .num b => if b < 0 then .ninf else .inf
  | .ninf, .num b => if b < 0 then .inf else .ninf
  | .inf, .inf => .nan
  | .inf, .ninf => .nan
  | .ninf, .inf => .nan
  | .ninf, .ninf => .nan

/-- Round to the nearest integer, ties to even (the rounding used by
Python's `round` and the two-decimal string format). -/
def roundHalfEven (q : ℚ) : ℤ :=
  let f := ⌊q⌋
  let r := q - f
  if r < 1 / 2 then f
  else if 1 / 2 < r then f + 1
  else if f % 2 = 0 then f else f + 1

/-- `round(x, 2)` on an exact rational. -/
def round2 (q : ℚ) : ℚ := (roundHalfEven (q * 100) : ℚ) / 100

/-- `round(series, 2)` on one cell: NaN and infinities pass through. -/
def pround2 : PVal → PVal
  | .num q => .num (round2 q)
  | x => x

/-- A row of the merged table after the rename step, with the canonical
column names the metrics code reads (`year` is the join key). -/
structure MetricsRow where
  year : Nat
  CashFlows : PVal
  Cash : PVal
  Liabilities : PVal
  AssetsCurrent : PVal
  Revenues : PVal
  LongTermDebt : PVal
  deriving DecidableEq, Repr

namespace EtlPipeline

/-- The hard-coded multiplier of `add_extra_columns`. -/
def EARNINGS_MULTIPLIER : ℚ := 20

/-- A metrics row extended with the three derived columns; `acl` and
`cfl` stand for the source's "ac/l" and "cf/l" column labels. -/
structure ExtRow extends MetricsRow where
  valuation : PVal
  acl : PVal
  cfl : PVal
  deriving DecidableEq, Repr

/-- The `valuation` cell:
`(EARNINGS_MULTIPLIER * CashFlows) + Cash - LongTermDebt`. -/
def valuationOf (r : MetricsRow) : PVal :=
  psub (padd (pmul (.num EARNINGS_MULTIPLIER) r.CashFlows) r.Cash)
    r.LongTermDebt

/-- The "ac/l" cell: `round(AssetsCurrent / Liabilities, 2)`. -/
def aclOf (r : MetricsRow) : PVal :=
  pround2 (pdiv r.AssetsCurrent r.Liabilities)

/-- The "cf/l" cell: `round(CashFlows / Liabilities, 2)`. -/
def cflOf (r : MetricsRow) : PVal :=
  pround2 (pdiv r.CashFlows r.Liabilities)

/-- `add_extra_columns(cleaned_df)` of `src/etl_pipeline.py`: the three
column assignments are elementwise, i.e. a per-row map that leaves the
existing columns in place. -/
def add_extra_columns (cleaned_df : List MetricsRow) : List ExtRow :=
  cleaned_df.map (fun r =>
    { toMetricsRow := r, valuation := valuationOf r, acl := aclOf r,
      cfl := cflOf r })

end EtlPipeline

namespace Main

/-- A metrics row extended with `src/main.py`'s single `valuation`
column. -/
structure ValRow extends MetricsRow where
  valuation : PVal
  deriving DecidableEq, Repr

/-- `add_valuation1_col(cleaned_df)` of `src/main.py`:
`cleaned_df["valuation"] = cleaned_df["CashFlows"] + cleaned_df["Cash"]`
— no multiplier and no debt term. -/
def add_valuation1_col (cleaned_df : List MetricsRow) : List ValRow :=
  cleaned_df.map (fun r =>
    { toMetricsRow := r, valuation := padd r.CashFlows r.Cash })

end Main

/-- A frame viewed by column for the drop stage: column label to its
cells. -/
abbrev ColTable := List (String × List PVal)

/-- `df.drop(columns=cols)` with the pandas default `errors="raise"`:
`KeyError` if any requested label is absent, otherwise remove exactly
the requested columns. -/
def dfDropCols (t : ColTable) (cols : List String) :
    Except String ColTable :=
  if cols.all (fun c => t.any (fun p => p.1 == c)) then
    Except.ok (t.filter (fun p => !(cols.any (fun c => p.1 == c))))
  else Except.error "KeyError"

namespace EtlPipeline

/-- The `accounts_to_drop` list of `process_financial_data`. -/
def accounts_to_drop : List String :=
  ["Revenues", "AssetsCurrent", "Liabilities"]

/-- The post-metrics drop of `src/etl_pipeline.py`:
`result.drop(columns=accounts_to_drop)` — no `errors="ignore"` and no
exception handler around it. -/
def dropStep (result : ColTable) : Except String ColTable :=
  dfDropCols result accounts_to_drop

end EtlPipeline

namespace Main

/-- The `drop_list` of `drop_unused_columns`. -/
def drop_list : List String :=
  ["Revenues", "AssetsCurrent", "Liabilities"]

/-- The per-column loop of `drop_unused_columns`: each drop is wrapped
in `try/except KeyError`, so an absent column leaves the frame
untouched. -/
def dropLoop : ColTable → List String → ColTable
  | t, [] => t
  | t, c :: rest =>
    dropLoop
      (match dfDropCols t [c] with
        | Except.ok t' => t'
        | Except.error _ => t)
      rest

/-- `drop_unused_columns(cleaned_df)` of `src/main.py`. -/
def drop_unused_columns (cleaned_df : ColTable) : ColTable :=
  dropLoop cleaned_df drop_list

end Main

/-- The value a formatter call returns: `src/main.py`'s variant returns
either the untouched number or a suffixed string, `src/etl_pipeline.py`'s
always a string. -/
inductive FormatResult where
  | asInt (n : Int)
  | asStr (s : String)
  deriving DecidableEq, Repr

/-- The Python format `"%.2f" % (num / threshold)` on exact integers:
round `num / threshold` to two decimals (ties to even) and print with a
sign, an integer part and exactly two fraction digits. -/
def fixed2 (num threshold : Int) : String :=
  let h : Int := roundHalfEven ((num : ℚ) * 100 / (threshold : ℚ))
  let sign := if h < 0 then "-" else ""
  let a := h.natAbs
  sign ++ toString (a / 100) ++ "." ++
    (if a % 100 < 10 then "0" else "") ++ toString (a % 100)

namespace EtlPipeline

/-- The `format_tuples` list of `format_values`. -/
def format_tuples : List (Int × String) :=
  [(10 ^ 12, "T"), (10 ^ 9, "B"), (10 ^ 6, "M")]

/-- The threshold loop of `format_values`. -/
def formatLoop (num : Int) : List (Int × String) → FormatResult
  | [] => FormatResult.asStr (toString num)
  | (threshold, suffix) :: rest =>
    if threshold ≤ |num| then
      FormatResult.asStr (fixed2 num threshold ++ suffix)
    else formatLoop num rest

/-- `format_values(num)` of `src/etl_pipeline.py`: annotated `-> str`
and falling through to `return str(num)`, so the result is always a
string. -/
def format_values (num : Int) : FormatResult :=
  formatLoop num format_tuples

end EtlPipeline

namespace Main

/-- `format_values(num)` of `src/main.py`: the final `else` branch
returns `num` itself, unconverted. -/
def format_values (num : Int) : FormatResult :=
  if (10 : Int) ^ 12 ≤ |num| then
    FormatResult.asStr (fixed2 num (10 ^ 12) ++ "T")
  else if (10 : Int) ^ 9 ≤ |num| then
    FormatResult.asStr (fixed2 num (10 ^ 9) ++ "B")
  else if (10 : Int) ^ 6 ≤ |num| then
    FormatResult.asStr (fixed2 num (10 ^ 6) ++ "M")
  else FormatResult.asInt num

end Main

/-! ## The duplicate-year drop (claim C2) -/

theorem keepLastByYear_subset {l : List (Nat × Int)} {x : Nat × Int}
    (hx : x ∈ keepLastByYear l) : x ∈ l := by
  induction l with
  | nil => simp [keepLastByYear] at hx
  | cons r rest ih =>
    by_cases h : rest.any (fun s => s.1 == r.1) = true
    · rw [keepLastByYear, if_pos h] at hx
      exact List.mem_cons_of_mem _ (ih hx)
    · rw [keepLastByYear, if_neg h] at hx
      rcases List.mem_cons.mp hx with hx | hx
      · simp [hx]
      · exact List.mem_cons_of_mem _ (ih hx)

theorem keepLastByYear_nodup (l : List (Nat × Int)) :
    ((keepLastByYear l).map Prod.fst).Nodup := by
  induction l with
  | nil => simp [keepLastByYear]
  | cons r rest ih =>
    by_cases h : rest.any (fun s => s.1 == r.1) = true
    · simpa [keepLastByYear, h] using ih
    · rw [keepLastByYear, if_neg h, List.map_cons, List.nodup_cons]
      refine ⟨?_, ih⟩
      intro hmem
      rcases List.mem_map.mp hmem with ⟨s, hs, hfst⟩
      exact h (List.any_eq_true.mpr
        ⟨s, keepLastByYear_subset hs, by simp [hfst]⟩)

theorem alookupYear_keepLastByYear (l : List (Nat × Int)) (y : Nat) :
    alookupYear (keepLastByYear l) y =
      ((l.filter (fun p => p.1 == y)).getLast?).map Prod.snd := by
  induction l with
  | nil => simp [keepLastByYear, alookupYear]
  | cons r rest ih =>
    by_cases h : rest.any (fun s => s.1 == r.1) = true
    · rw [keepLastByYear, if_pos h, ih]
      by_cases hy : (r.1 == y) = true
      · rw [List.filter_cons, if_pos hy]
        rcases List.any_eq_true.mp h with ⟨s, hs, hsy⟩
        have hyr : r.1 = y := by simpa using hy
        have hmem : s ∈ rest.filter (fun p => p.1 == y) :=
          List.mem_filter.mpr ⟨hs, by
            have hsr : s.1 = r.1 := by simpa using hsy
            simp [hsr, hyr]⟩
        cases hf : rest.filter (fun p => p.1 == y) with
        | nil => rw [hf] at hmem; exact absurd hmem (List.not_mem_nil s)
        | cons x xs => rw [List.getLast?_cons_cons]
      · rw [List.filter_cons, if_neg hy]
    · rw [keepLastByYear, if_neg h]
      by_cases hy : (r.1 == y) = true
      · have hyr : r.1 = y := by simpa using hy
        have hf : rest.filter (fun p => p.1 == y) = [] := by
          rw [List.filter_eq_nil_iff]
          intro s hs hsy
          apply h
          refine List.any_eq_true.mpr ⟨s, hs, ?_⟩
          have hsy' : s.1 = y := by simpa using hsy
          simp [hsy', hyr]
        rw [List.filter_cons, if_pos hy, hf]
        show (List.find? (fun p => p.1 == y)
            (r :: keepLastByYear rest)).map Prod.snd =
          ([r].getLast?).map Prod.snd
        rw [List.find?_cons, hy]
        simp
      · rw [List.filter_cons, if_neg hy]
        have hstep : alookupYear (r :: keepLastByYear rest) y =
            alookupYear (keepLastByYear rest) y := by
          show (List.find? (fun p => p.1 == y)
              (r :: keepLastByYear rest)).map Prod.snd =
            (List.find? (fun p => p.1 == y)
              (keepLastByYear rest)).map Prod.snd
          rw [List.find?_cons, Bool.of_not_eq_true hy]
        rw [hstep, ih]

theorem filter_year_map_facts (facts : List FactRecord) (y : Nat) :
    ((facts.map (fun f => (f.endDate.year, f.val))).filter
        (fun p => p.1 == y)) =
      (facts.filter (fun f => f.endDate.year == y)).map
        (fun f => (f.endDate.year, f.val)) := by
  induction facts with
  | nil => simp
  | cons f rest ih =>
    rw [List.map_cons, List.filter_cons, List.filter_cons]
    by_cases hy : (f.endDate.year == y) = true
    · rw [if_pos hy, if_pos hy, List.map_cons, ih]
    · rw [if_neg hy, if_neg hy, ih]

/-- C2: for every fact list of one account, extraction keeps at most one
record per calendar year of the period-end date, and the value recorded
for a year is the value of the record appearing last in document order
among the annual-period (`fp = "FY"`) records of that year. -/
theorem claim_C2 (facts : List FactRecord) :
    ((seriesOfFacts facts).map Prod.fst).Nodup ∧
      ∀ y : Nat,
        alookupYear (seriesOfFacts facts) y =
          (((filterFY facts).filter
              (fun f => f.endDate.year == y)).getLast?).map FactRecord.val := by
  constructor
  · exact keepLastByYear_nodup _
  · intro y
    rw [seriesOfFacts, alookupYear_keepLastByYear, filter_year_map_facts,
      List.getLast?_map, Option.map_map]
    rfl

/-! ## Sample data used by concrete instances -/

/-- An annual ("FY") fact with period end December 31 of year `y`. -/
def fyFact (y : Nat) (v : Int) : FactRecord :=
  { endDate := { year := y, month := 12, day := 31 }, val := v, fp := "FY" }

/-- A document reporting only the account "Assets", under us-gaap. -/
def usDoc : Document :=
  { facts := [("us-gaap", [("Assets", { units := [("USD", [fyFact 2020 5])] })])] }

/-- A document with no us-gaap object, reporting "Assets" under
ifrs-full. -/
def ifrsOnlyDoc : Document :=
  { facts := [("ifrs-full",
      [("Assets", { units := [("USD", [fyFact 2020 5])] })])] }

/-- A document carrying both taxonomy objects, with "Assets" reported
only under ifrs-full. -/
def bothDoc : Document :=
  { facts :=
      [("us-gaap", [("Liabilities", { units := [("USD", [fyFact 2020 1])] })]),
       ("ifrs-full", [("Assets", { units := [("USD", [fyFact 2020 5])] })])] }

/-! ## The all-empty merge (claim C1) -/

/-- C1: on a list in which every series is empty, `merge_final_df`
reproduces the `IndexError` of `cleaned_df_list[0]` applied to the
emptied filtered list; the explicit `EmptyResult` error the
specification prescribes is never produced by the code. -/
theorem claim_C1 (df_list : List Series) (h : ∀ df ∈ df_list, df = []) :
    merge_final_df df_list = Except.error MergeError.indexError ∧
      merge_final_df df_list ≠ Except.error MergeError.emptyResult := by
  have hf : df_list.filter (fun df => !df.isEmpty) = [] := by
    rw [List.filter_eq_nil_iff]
    intro df hdf
    simp [h df hdf]
  constructor
  · simp only [merge_final_df, hf]
  · simp only [merge_final_df, hf]
    simp

/-- Concrete instance of C1: two empty account series. -/
theorem claim_C1_witness :
    (∀ df ∈ ([[], []] : List Series), df = []) ∧
      (merge_final_df [[], []] = Except.error MergeError.indexError ∧
        merge_final_df [[], []] ≠ Except.error MergeError.emptyResult) :=
  ⟨by simp, claim_C1 [[], []] (by simp)⟩

/-! ## Non-fatal extraction failures (claim C9) -/

/-- C9: a missing us-gaap taxonomy object, a missing account within it,
or a missing "USD" unit bucket lands in the `except KeyError` branch of
the extraction loop, which appends an empty series; an empty series is
discarded by the merge's filter and so contributes no column. -/
theorem claim_C9 (doc : Document) (account : String)
    (h : alookup doc.facts "us-gaap" = none ∨
      ∃ tax, alookup doc.facts "us-gaap" = some tax ∧
        (alookup tax account = none ∨
          ∃ acc, alookup tax account = some acc ∧
            alookup acc.units "USD" = none)) :
    EtlPipeline.extractAccount doc account = [] ∧
      ∀ pre post : List Series,
        merge_final_df
            (pre ++ EtlPipeline.extractAccount doc account :: post) =
          merge_final_df (pre ++ post) := by
  have hacc : EtlPipeline.accFacts doc account = none := by
    rcases h with h | ⟨tax, htax, h⟩
    · simp [EtlPipeline.accFacts, h]
    · rcases h with h | ⟨acc, haccn, h⟩
      · simp [EtlPipeline.accFacts, htax, h]
      · simp [EtlPipeline.accFacts, htax, haccn, h]
  have hext : EtlPipeline.extractAccount doc account = [] := by
    simp [EtlPipeline.extractAccount, hacc]
  refine ⟨hext, ?_⟩
  intro pre post
  rw [hext]
  have hfil : (pre ++ ([] : Series) :: post).filter (fun df => !df.isEmpty) =
      (pre ++ post).filter (fun df => !df.isEmpty) := by
    simp [List.filter_append, List.filter_cons]
  simp only [merge_final_df, hfil]

/-- Concrete instance of C9: `usDoc` does not report "Liabilities", and
the empty placeholder drops out of a surrounding merge. -/
theorem claim_C9_witness :
    (∃ tax, alookup usDoc.facts "us-gaap" = some tax ∧
        alookup tax "Liabilities" = none) ∧
      EtlPipeline.extractAccount usDoc "Liabilities" = [] ∧
      merge_final_df
          ([[(2020, (5 : Int))]] ++
            EtlPipeline.extractAccount usDoc "Liabilities" :: [[(2021, (7 : Int))]]) =
        merge_final_df ([[(2020, (5 : Int))]] ++ [[(2021, (7 : Int))]]) := by
  have h := claim_C9 usDoc "Liabilities"
    (Or.inr ⟨_, rfl, Or.inl rfl⟩)
  exact ⟨⟨_, rfl, rfl⟩, h.1, h.2 [[(2020, (5 : Int))]] [[(2021, (7 : Int))]]⟩

/-! ## Shape of the extractor output (claim C10) -/

theorem clean_company_data_eq_map (doc : Document)
    (accounts : List String) :
    EtlPipeline.clean_company_data doc accounts =
      accounts.map (EtlPipeline.extractAccount doc) := by
  induction accounts with
  | nil => rfl
  | cons a rest ih => simp [EtlPipeline.clean_company_data, ih]

/-- C10: the extraction loop produces exactly one series per requested
account, in request order, and an account whose chained key accesses
fail occupies its position as an empty placeholder instead of being
omitted. -/
theorem claim_C10 (doc : Document) (accounts : List String) :
    (EtlPipeline.clean_company_data doc accounts).length =
        accounts.length ∧
      (∀ i : Nat, (EtlPipeline.clean_company_data doc accounts)[i]? =
        (accounts[i]?).map (EtlPipeline.extractAccount doc)) ∧
      ∀ i : Nat, ∀ a : String, accounts[i]? = some a →
        EtlPipeline.accFacts doc a = none →
        (EtlPipeline.clean_company_data doc accounts)[i]? = some [] := by
  refine ⟨?_, ?_, ?_⟩
  · rw [clean_company_data_eq_map, List.length_map]
  · intro i
    rw [clean_company_data_eq_map, List.getElem?_map]
  · intro i a hi hacc
    rw [clean_company_data_eq_map, List.getElem?_map, hi]
    simp [EtlPipeline.extractAccount, hacc]

/-- Concrete instance of C10: requesting two accounts of `usDoc`, the
second of which is unreported, yields a two-entry list whose second
entry is the empty placeholder. -/
theorem claim_C10_witness :
    (EtlPipeline.clean_company_data usDoc ["Assets", "Liabilities"]).length
        = 2 ∧
      (["Assets", "Liabilities"] : List String)[1]? = some "Liabilities" ∧
      EtlPipeline.accFacts usDoc "Liabilities" = none ∧
      (EtlPipeline.clean_company_data usDoc ["Assets", "Liabilities"])[1]?
        = some [] := by
  refine ⟨(claim_C10 usDoc ["Assets", "Liabilities"]).1, rfl, rfl, ?_⟩
  exact (claim_C10 usDoc ["Assets", "Liabilities"]).2.2 1 "Liabilities" rfl rfl

/-! ## The outer-join merge on non-empty series (claim C3) -/

theorem find?key_filter (s : Series) (q : Nat × Int → Bool) (y : Nat)
    (hq : ∀ p ∈ s, p.1 = y → q p = true) :
    (s.filter q).find? (fun p => p.1 == y) =
      s.find? (fun p => p.1 == y) := by
  induction s with
  | nil => simp
  | cons r rest ih =>
    have ih' := ih (fun p hp => hq p (List.mem_cons_of_mem _ hp))
    cases hqr : q r with
    | true =>
      rw [List.filter_cons, if_pos hqr, List.find?_cons, List.find?_cons]
      cases hy : (r.1 == y) with
      | true => rfl
      | false => exact ih'
    | false =>
      rw [List.filter_cons, if_neg (by simp [hqr])]
      have hy : (r.1 == y) = false := by
        cases hcon : (r.1 == y) with
        | false => rfl
        | true =>
          have : q r = true := hq r (by simp) (by simpa using hcon)
          rw [hqr] at this
          exact absurd this (by simp)
      rw [List.find?_cons, hy]
      exact ih'

/-- The invariant carried through the merge fold: the accumulated table
is nonempty, has pairwise distinct years, one cell per processed series
in every row, and its row for year `y` exists iff some processed series
reports `y`, in which case its cells are the per-series lookups. -/
def MergeInv (processed : List Series) (t : Table) : Prop :=
  t ≠ [] ∧ ((t.map Prod.fst).Nodup ∧
    (∀ r ∈ t, r.2.length = processed.length) ∧
    ∀ y : Nat, tableLookup t y =
      if processed.any (fun s => (alookupYear s y).isSome)
      then some (processed.map (fun s => alookupYear s y))
      else none)

theorem outerMerge_inv (processed : List Series) (t : Table) (s : Series)
    (hinv : MergeInv processed t) (hs : (s.map Prod.fst).Nodup) :
    MergeInv (processed ++ [s]) (outerMerge t s) := by
  obtain ⟨hne, hnodup, hlen, hlook⟩ := hinv
  have hncols : ncolsOf t = processed.length := by
    cases t with
    | nil => exact absurd rfl hne
    | cons r0 t0 => exact hlen r0 (by simp)
  refine ⟨?_, ?_, ?_, ?_⟩
  · cases t with
    | nil => exact absurd rfl hne
    | cons r0 t0 => simp [outerMerge]
  · have hkeys : (outerMerge t s).map Prod.fst =
        t.map Prod.fst ++
          (s.filter (fun p => !(t.any (fun r => r.1 == p.1)))).map
            Prod.fst := by
      simp only [outerMerge, List.map_append, List.map_map]
      rfl
    rw [hkeys]
    refine List.Nodup.append hnodup ?_ ?_
    · exact List.Nodup.sublist ((List.filter_sublist s).map Prod.fst) hs
    · intro a ha1 ha2
      rcases List.mem_map.mp ha2 with ⟨p, hp, hpa⟩
      rcases List.mem_filter.mp hp with ⟨_, hq⟩
      rcases List.mem_map.mp ha1 with ⟨r, hr, hra⟩
      have : t.any (fun r => r.1 == p.1) = true :=
        List.any_eq_true.mpr ⟨r, hr, by simp [hra, hpa]⟩
      rw [this] at hq
      exact absurd hq (by simp)
  · intro r hr
    rcases List.mem_append.mp hr with hr | hr
    · rcases List.mem_map.mp hr with ⟨r', hr', rfl⟩
      simp [hlen r' hr']
    · rcases List.mem_map.mp hr with ⟨p, hp, rfl⟩
      simp [hncols]
  · intro y
    have hA : (t.map
          (fun r => (r.1, r.2 ++ [alookupYear s r.1]))).find?
          (fun r => r.1 == y) =
        (t.find? (fun r => r.1 == y)).map
          (fun r => (r.1, r.2 ++ [alookupYear s r.1])) := by
      rw [List.find?_map]
      rfl
    have hB : ((s.filter (fun p => !(t.any (fun r => r.1 == p.1)))).map
          (fun p => (p.1, List.replicate (ncolsOf t) none ++ [some p.2]))).find?
          (fun r => r.1 == y) =
        ((s.filter (fun p => !(t.any (fun r => r.1 == p.1)))).find?
          (fun p => p.1 == y)).map
          (fun p => (p.1, List.replicate (ncolsOf t) none ++ [some p.2])) := by
      rw [List.find?_map]
      rfl
    simp only [tableLookup, outerMerge, List.find?_append, hA, hB]
    by_cases hy : processed.any (fun s' => (alookupYear s' y).isSome) = true
    · have hsome := hlook y
      rw [if_pos hy] at hsome
      rcases Option.map_eq_some'.mp hsome with ⟨r, hfind, hcells⟩
      have hry : r.1 = y := by simpa using List.find?_some hfind
      have hcond : ((processed ++ [s]).any
          fun s' => (alookupYear s' y).isSome) = true := by
        simp [List.any_append, hy]
      rw [hfind, if_pos hcond]
      simp [Option.or_some, List.map_append, hcells, hry]
    · have hnone := hlook y
      rw [if_neg hy] at hnone
      have hfind : t.find? (fun r => r.1 == y) = none :=
        Option.map_eq_none'.mp hnone
      have hpa : processed.any (fun s' => (alookupYear s' y).isSome) = false :=
        Bool.of_not_eq_true hy
      rw [hfind]
      simp only [Option.map_none', Option.none_or]
      rw [find?key_filter]
      · cases hsf : s.find? (fun p => p.1 == y) with
        | some p =>
          have hpy : p.1 = y := by simpa using List.find?_some hsf
          have hslook : alookupYear s y = some p.2 := by
            simp [alookupYear, hsf]
          have hcond : ((processed ++ [s]).any
              fun s' => (alookupYear s' y).isSome) = true := by
            simp [List.any_append, hslook]
          rw [if_pos hcond]
          have hallnone : ∀ s' ∈ processed, alookupYear s' y = none := by
            intro s' hs'
            cases halo : alookupYear s' y with
            | none => rfl
            | some v =>
              have : processed.any
                  (fun s' => (alookupYear s' y).isSome) = true :=
                List.any_eq_true.mpr ⟨s', hs', by simp [halo]⟩
              rw [hpa] at this
              exact absurd this (by simp)
          have hrep : processed.map (fun s' => alookupYear s' y) =
              List.replicate processed.length none :=
            List.map_eq_replicate_iff.mpr hallnone
          simp [List.map_append, hrep, hncols, hslook, hpy]
        | none =>
          have hslook : alookupYear s y = none := by
            simp [alookupYear, hsf]
          have hcond : ((processed ++ [s]).any
              fun s' => (alookupYear s' y).isSome) = false := by
            simp [List.any_append, hpa, hslook]
          rw [if_neg (by simp [hcond])]
          simp
      · intro p hp hpy
        have hany : t.any (fun r => r.1 == p.1) = false := by
          cases hcon : t.any (fun r => r.1 == p.1) with
          | false => rfl
          | true =>
            rcases List.any_eq_true.mp hcon with ⟨r, hr, hrp⟩
            have : ¬ ((r.1 == y) = true) := List.find?_eq_none.mp hfind r hr
            exact absurd (by simpa [hpy] using hrp) this
        simp [hany]

theorem mergeAll_inv (rest : List Series) (processed : List Series)
    (t : Table) (hinv : MergeInv processed t)
    (hrest : ∀ s ∈ rest, (s.map Prod.fst).Nodup) :
    MergeInv (processed ++ rest) (mergeAll t rest) := by
  induction rest generalizing processed t with
  | nil => simpa [mergeAll] using hinv
  | cons s rest' ih =>
    have h1 := outerMerge_inv processed t s hinv (hrest s (by simp))
    have h2 := ih (processed ++ [s]) (outerMerge t s) h1
      (fun s' hs' => hrest s' (by simp [hs']))
    simpa [mergeAll, List.append_assoc] using h2

theorem seriesToTable_inv (s : Series) (hne : s ≠ [])
    (hs : (s.map Prod.fst).Nodup) : MergeInv [s] (seriesToTable s) := by
  refine ⟨?_, ?_, ?_, ?_⟩
  · cases s with
    | nil => exact absurd rfl hne
    | cons p s' => simp [seriesToTable]
  · have hkeys : (seriesToTable s).map Prod.fst = s.map Prod.fst := by
      simp only [seriesToTable, List.map_map]
      rfl
    rw [hkeys]
    exact hs
  · intro r hr
    rcases List.mem_map.mp hr with ⟨p, hp, rfl⟩
    simp
  · intro y
    have hA : (s.map (fun p => (p.1, [some p.2]))).find?
          (fun r => r.1 == y) =
        (s.find? (fun p => p.1 == y)).map (fun p => (p.1, [some p.2])) := by
      rw [List.find?_map]
      rfl
    simp only [tableLookup, seriesToTable, hA]
    cases hsf : s.find? (fun p => p.1 == y) with
    | some p =>
      have hslook : alookupYear s y = some p.2 := by simp [alookupYear, hsf]
      rw [if_pos (by simp [hslook])]
      simp [hslook]
    | none =>
      have hslook : alookupYear s y = none := by simp [alookupYear, hsf]
      rw [if_neg (by simp [hslook])]
      simp

/-- C3: merging a nonempty list of nonempty account series (each with
pairwise distinct years, as extraction guarantees) succeeds, and the
resulting table has a row for exactly the years in the union of the
series' year sets; the row of year `y` holds, for each input series in
order, that series' value at `y` — `none` (NaN) when the series does
not report `y` — so no row is dropped however many cells are null. -/
theorem claim_C3 (df_list : List Series) (hne : df_list ≠ [])
    (hnonempty : ∀ s ∈ df_list, s ≠ [])
    (hnodup : ∀ s ∈ df_list, (s.map Prod.fst).Nodup) :
    ∃ t : Table, merge_final_df df_list = Except.ok t ∧
      ∀ y : Nat, tableLookup t y =
        if df_list.any (fun s => (alookupYear s y).isSome)
        then some (df_list.map (fun s => alookupYear s y))
        else none := by
  obtain ⟨d, ds, rfl⟩ := List.exists_cons_of_ne_nil hne
  have hfil : (d :: ds).filter (fun df => !df.isEmpty) = d :: ds := by
    rw [List.filter_eq_self]
    intro s hs
    cases s with
    | nil => exact absurd rfl (hnonempty _ hs)
    | cons a l => rfl
  have hinv : MergeInv (d :: ds) (mergeAll (seriesToTable d) ds) := by
    have h0 := seriesToTable_inv d (hnonempty d (by simp))
      (hnodup d (by simp))
    have h1 := mergeAll_inv ds [d] (seriesToTable d) h0
      (fun s hs => hnodup s (List.mem_cons_of_mem _ hs))
    simpa using h1
  refine ⟨mergeAll (seriesToTable d) ds, ?_, hinv.2.2.2⟩
  simp only [merge_final_df, hfil]

/-- Concrete instance of C3: two singleton series with disjoint years
merge into a two-row table with a NaN cell on each side. -/
theorem claim_C3_witness :
    (([[(2020, (5 : Int))], [(2021, (7 : Int))]] : List Series) ≠ [] ∧
        (∀ s ∈ ([[(2020, (5 : Int))], [(2021, (7 : Int))]] : List Series),
          s ≠ []) ∧
        ∀ s ∈ ([[(2020, (5 : Int))], [(2021, (7 : Int))]] : List Series),
          (s.map Prod.fst).Nodup) ∧
      ∃ t : Table,
        merge_final_df [[(2020, (5 : Int))], [(2021, (7 : Int))]] =
            Except.ok t ∧
          ∀ y : Nat, tableLookup t y =
            if ([[(2020, (5 : Int))], [(2021, (7 : Int))]] : List Series).any
                (fun s => (alookupYear s y).isSome)
            then some
              (([[(2020, (5 : Int))], [(2021, (7 : Int))]] : List Series).map
                (fun s => alookupYear s y))
            else none := by
  refine ⟨⟨by simp, by decide, by decide⟩, ?_⟩
  exact claim_C3 [[(2020, (5 : Int))], [(2021, (7 : Int))]] (by simp)
    (by decide) (by decide)

/-! ## The cleaning-module taxonomy fallback (claim C6) -/

namespace DataCleaning

/-- `prep_data(json_data)` of `src/scripts/data_cleaning.py`: picks, at
document level, the us-gaap object when present, else the ifrs-full
object when present, else an empty object — the choice does not look at
any account. -/
def prep_data (json_data : Document) : TaxObj :=
  match alookup json_data.facts "us-gaap" with
  | some obj => obj
  | none =>
    match alookup json_data.facts "ifrs-full" with
    | some obj => obj
    | none => []

/-- `get_df(data, account)` of `src/scripts/data_cleaning.py`: the
cleaning core applied to a taxonomy object; a failed key access lands in
the `except KeyError` branch and yields the empty DataFrame. -/
def get_df (data : TaxObj) (account : String) : Series :=
  match (alookup data account).bind (fun acc => alookup acc.units "USD") with
  | some facts => seriesOfFacts facts
  | none => []

end DataCleaning

/-- C6 counterexample: in `bothDoc` the account "Assets" is reported
only under ifrs-full, but a us-gaap object is present, so the
document-level fallback selects us-gaap and the account's series is not
extracted; the wired etl extractor, reading only us-gaap, also returns
the empty series.  The series the claim says is "still located" is
`[(2020, 5)]`, as the third conjunct shows by reading the ifrs-full
object directly. -/
theorem claim_C6_cex :
    DataCleaning.get_df (DataCleaning.prep_data bothDoc) "Assets" = [] ∧
      EtlPipeline.extractAccount bothDoc "Assets" = [] ∧
      DataCleaning.get_df
          [("Assets", { units := [("USD", [fyFact 2020 5])] })] "Assets" =
        [(2020, 5)] := by
  refine ⟨by decide, by decide, by decide⟩

/-- C6 (amended): the cleaning module resolves the taxonomy per
document, not per account: whenever the document has no us-gaap object
and does have an ifrs-full object, `prep_data` returns the ifrs-full
object and every account — in particular one reported only under
ifrs-full — is extracted from it. -/
theorem claim_C6_amended (doc : Document) (account : String) (i : TaxObj)
    (h : alookup doc.facts "us-gaap" = none)
    (hi : alookup doc.facts "ifrs-full" = some i) :
    DataCleaning.prep_data doc = i ∧
      DataCleaning.get_df (DataCleaning.prep_data doc) account =
        DataCleaning.get_df i account := by
  have hp : DataCleaning.prep_data doc = i := by
    simp [DataCleaning.prep_data, h, hi]
  exact ⟨hp, by rw [hp]⟩

/-- Concrete instance of C6 (amended): `ifrsOnlyDoc` has no us-gaap
object, so its ifrs-full-only account is read from ifrs-full. -/
theorem claim_C6_witness :
    (alookup ifrsOnlyDoc.facts "us-gaap" = none ∧
        alookup ifrsOnlyDoc.facts "ifrs-full" =
          some [("Assets", { units := [("USD", [fyFact 2020 5])] })]) ∧
      (DataCleaning.prep_data ifrsOnlyDoc =
          [("Assets", { units := [("USD", [fyFact 2020 5])] })] ∧
        DataCleaning.get_df (DataCleaning.prep_data ifrsOnlyDoc) "Assets" =
          DataCleaning.get_df
            [("Assets", { units := [("USD", [fyFact 2020 5])] })]
            "Assets") :=
  ⟨⟨rfl, rfl⟩,
    claim_C6_amended ifrsOnlyDoc "Assets"
      [("Assets", { units := [("USD", [fyFact 2020 5])] })] rfl rfl⟩

/-! ## Ratio columns and division semantics (claim C4) -/

/-- A sample row with zero Liabilities and nonzero numerators. -/
def zeroLiabRow : MetricsRow :=
  { year := 2020, CashFlows := PVal.num 7, Cash := PVal.num 3,
    Liabilities := PVal.num 0, AssetsCurrent := PVal.num 5,
    Revenues := PVal.num 11, LongTermDebt := PVal.num 2 }

/-- A sample row with null (NaN) Liabilities. -/
def nanLiabRow : MetricsRow :=
  { year := 2021, CashFlows := PVal.num 7, Cash := PVal.num 3,
    Liabilities := PVal.nan, AssetsCurrent := PVal.num 5,
    Revenues := PVal.num 11, LongTermDebt := PVal.num 2 }

/-- C4 counterexample: with Liabilities = 0 and nonzero numerators, the
"ac/l" and "cf/l" cells are +infinity (numpy division by zero), not
null/NaN as the claim states. -/
theorem claim_C4_cex :
    (EtlPipeline.add_extra_columns [zeroLiabRow]).map
        EtlPipeline.ExtRow.acl = [PVal.inf] ∧
      (EtlPipeline.add_extra_columns [zeroLiabRow]).map
        EtlPipeline.ExtRow.cfl = [PVal.inf] ∧
      PVal.inf ≠ PVal.nan := by
  refine ⟨by decide, by decide, by decide⟩

/-- C4 (amended): the metric computation is total and per-row — every
row is kept, with its input columns intact and all derived cells
computed, and the other rows are untouched.  A null (NaN) Liabilities
makes both ratio cells null; a zero Liabilities makes a ratio cell null
exactly when its numerator is null or zero, and an infinity when the
numerator is nonzero. -/
theorem claim_C4_amended (t : List MetricsRow) :
    (EtlPipeline.add_extra_columns t).length = t.length ∧
      ∀ i : Nat, ∀ r : MetricsRow, t[i]? = some r →
        (EtlPipeline.add_extra_columns t)[i]? = some
            { toMetricsRow := r, valuation := EtlPipeline.valuationOf r,
              acl := EtlPipeline.aclOf r, cfl := EtlPipeline.cflOf r } ∧
          (r.Liabilities = PVal.nan →
            EtlPipeline.aclOf r = PVal.nan ∧
              EtlPipeline.cflOf r = PVal.nan) ∧
          (r.Liabilities = PVal.num 0 →
            ((EtlPipeline.aclOf r = PVal.nan ↔
                (r.AssetsCurrent = PVal.nan ∨
                  r.AssetsCurrent = PVal.num 0)) ∧
              (EtlPipeline.cflOf r = PVal.nan ↔
                (r.CashFlows = PVal.nan ∨ r.CashFlows = PVal.num 0)))) := by
  refine ⟨by simp [EtlPipeline.add_extra_columns], ?_⟩
  intro i r hi
  refine ⟨?_, ?_, ?_⟩
  · simp only [EtlPipeline.add_extra_columns, List.getElem?_map, hi,
      Option.map_some']
  · intro hl
    constructor
    · cases hAC : r.AssetsCurrent <;>
        simp [EtlPipeline.aclOf, hl, hAC, pdiv, pround2]
    · cases hCF : r.CashFlows <;>
        simp [EtlPipeline.cflOf, hl, hCF, pdiv, pround2]
  · intro hl
    constructor
    · cases hAC : r.AssetsCurrent with
      | num a =>
        rcases lt_trichotomy a 0 with ha | rfl | ha
        · simp [EtlPipeline.aclOf, hl, hAC, pdiv, pround2, ha, asymm ha,
            ha.ne]
        · simp [EtlPipeline.aclOf, hl, hAC, pdiv, pround2]
        · simp [EtlPipeline.aclOf, hl, hAC, pdiv, pround2, ha, asymm ha,
            ha.ne']
      | nan => simp [EtlPipeline.aclOf, hl, hAC, pdiv, pround2]
      | inf => simp [EtlPipeline.aclOf, hl, hAC, pdiv, pround2]
      | ninf => simp [EtlPipeline.aclOf, hl, hAC, pdiv, pround2]
    · cases hCF : r.CashFlows with
      | num a =>
        rcases lt_trichotomy a 0 with ha | rfl | ha
        · simp [EtlPipeline.cflOf, hl, hCF, pdiv, pround2, ha, asymm ha,
            ha.ne]
        · simp [EtlPipeline.cflOf, hl, hCF, pdiv, pround2]
        · simp [EtlPipeline.cflOf, hl, hCF, pdiv, pround2, ha, asymm ha,
            ha.ne']
      | nan => simp [EtlPipeline.cflOf, hl, hCF, pdiv, pround2]
      | inf => simp [EtlPipeline.cflOf, hl, hCF, pdiv, pround2]
      | ninf => simp [EtlPipeline.cflOf, hl, hCF, pdiv, pround2]

/-- Concrete instance of C4 (amended): a null-Liabilities row really
does get null ratio cells, and the row count is preserved. -/
theorem claim_C4_witness :
    (EtlPipeline.add_extra_columns [nanLiabRow]).length = 1 ∧
      nanLiabRow.Liabilities = PVal.nan ∧
      EtlPipeline.aclOf nanLiabRow = PVal.nan ∧
      EtlPipeline.cflOf nanLiabRow = PVal.nan := by
  have h := claim_C4_amended [nanLiabRow]
  have h2 := (h.2 0 nanLiabRow rfl).2.1 rfl
  exact ⟨h.1, rfl, h2.1, h2.2⟩

/-! ## The sub-threshold formatter result (claim C5) -/

/-- C5 counterexample: the pipeline-module formatter returns the string
"123" for the input 123 — the `str(num)` fall-through — not the number
itself. -/
theorem claim_C5_cex :
    EtlPipeline.format_values 123 = FormatResult.asStr "123" ∧
      FormatResult.asStr "123" ≠ FormatResult.asInt 123 := by
  refine ⟨by decide, by decide⟩

/-- C5 (amended): below the smallest threshold the two formatter
variants diverge — `src/main.py` returns the number itself unchanged,
while `src/etl_pipeline.py` falls through to `str(num)` and returns the
decimal string representation; neither attaches a magnitude suffix. -/
theorem claim_C5_amended (num : Int) (h : |num| < 10 ^ 6) :
    Main.format_values num = FormatResult.asInt num ∧
      EtlPipeline.format_values num = FormatResult.asStr (toString num) := by
  norm_num at h
  have h6 : ¬ ((1000000 : Int) ≤ |num|) := not_le.mpr h
  have h9 : ¬ ((1000000000 : Int) ≤ |num|) := fun hc => h6 (by linarith)
  have h12 : ¬ ((1000000000000 : Int) ≤ |num|) := fun hc =>
    h6 (by linarith)
  constructor
  · simp [Main.format_values, h12, h9, h6]
  · simp [EtlPipeline.format_values, EtlPipeline.format_tuples,
      EtlPipeline.formatLoop, h12, h9, h6]

/-- Concrete instance of C5 (amended) at the claim's input 123. -/
theorem claim_C5_witness :
    |(123 : Int)| < 10 ^ 6 ∧
      (Main.format_values 123 = FormatResult.asInt 123 ∧
        EtlPipeline.format_values 123 =
          FormatResult.asStr (toString (123 : Int))) :=
  ⟨by decide, claim_C5_amended 123 (by decide)⟩

/-! ## The post-metrics column drop (claim C7) -/

/-- C7 counterexample: on a table missing the configured column
"AssetsCurrent" (and others), the etl pipeline's drop call errors with
a KeyError instead of skipping the missing labels. -/
theorem claim_C7_cex :
    EtlPipeline.dropStep [("valuation", ([] : List PVal)), ("Revenues", [])] =
      Except.error "KeyError" := by
  rfl

theorem dropLoop_eq_filter (t : ColTable) (cols : List String) :
    Main.dropLoop t cols =
      t.filter (fun p => !(cols.any (fun c => p.1 == c))) := by
  induction cols generalizing t with
  | nil => simp [Main.dropLoop]
  | cons c rest ih =>
    have hstep :
        (match dfDropCols t [c] with
          | Except.ok t' => t'
          | Except.error _ => t) =
          t.filter (fun p => !(p.1 == c)) := by
      by_cases hc : ([c] : List String).all
          (fun c' => t.any (fun p => p.1 == c')) = true
      · simp only [dfDropCols, if_pos hc]
        apply List.filter_congr
        intro p hp
        simp
      · simp only [dfDropCols, if_neg hc]
        have hnone : t.any (fun p => p.1 == c) = false := by
          cases hcon : t.any (fun p => p.1 == c) with
          | false => rfl
          | true => exact absurd (by simpa using hcon) (by simpa using hc)
        symm
        rw [List.filter_eq_self]
        intro p hp
        cases hpc : (p.1 == c) with
        | false => rfl
        | true =>
          have : t.any (fun p => p.1 == c) = true :=
            List.any_eq_true.mpr ⟨p, hp, hpc⟩
          rw [hnone] at this
          exact absurd this (by simp)
    rw [Main.dropLoop, hstep, ih, List.filter_filter]
    apply List.filter_congr
    intro p hp
    cases hpc : (p.1 == c) <;> simp [List.any_cons, hpc]

/-- C7 (amended): the main-script drop removes exactly the configured
columns that are present, skips absent ones silently and never errors —
its result is the input minus the drop-listed columns; the etl
pipeline's drop call instead raises a KeyError as soon as any
configured column is absent from the table. -/
theorem claim_C7_amended (t : ColTable) :
    Main.drop_unused_columns t =
        t.filter (fun p => !(Main.drop_list.any (fun c => p.1 == c))) ∧
      (EtlPipeline.accounts_to_drop.all
          (fun c => t.any (fun p => p.1 == c)) = false →
        EtlPipeline.dropStep t = Except.error "KeyError") := by
  constructor
  · exact dropLoop_eq_filter t Main.drop_list
  · intro h
    simp [EtlPipeline.dropStep, dfDropCols, h]

/-- Concrete instance of C7 (amended): a table with only "valuation" and
"Revenues" columns; main's drop removes "Revenues" and keeps
"valuation", etl's drop errors. -/
theorem claim_C7_witness :
    (EtlPipeline.accounts_to_drop.all
        (fun c => ([("valuation", ([] : List PVal)), ("Revenues", [])]).any
          (fun p => p.1 == c)) = false) ∧
      (Main.drop_unused_columns
          [("valuation", ([] : List PVal)), ("Revenues", [])] =
        ([("valuation", ([] : List PVal)), ("Revenues", [])]).filter
          (fun p => !(Main.drop_list.any (fun c => p.1 == c)))) ∧
      EtlPipeline.dropStep
          [("valuation", ([] : List PVal)), ("Revenues", [])] =
        Except.error "KeyError" :=
  ⟨by decide,
    (claim_C7_amended [("valuation", ([] : List PVal)), ("Revenues", [])]).1,
    (claim_C7_amended [("valuation", ([] : List PVal)), ("Revenues", [])]).2
      (by decide)⟩

/-! ## The valuation formula (claim C8) -/

/-- The claim's instance row: CashFlows 100, Cash 50, LongTermDebt 30. -/
def instRow : MetricsRow :=
  { year := 2020, CashFlows := PVal.num 100, Cash := PVal.num 50,
    Liabilities := PVal.num 40, AssetsCurrent := PVal.num 60,
    Revenues := PVal.num 70, LongTermDebt := PVal.num 30 }

/-- C8 counterexample: `src/main.py`'s valuation column on the claim's
instance (CashFlows 100, Cash 50, LongTermDebt 30) holds 150 —
`CashFlows + Cash`, with no multiplier and no debt term — not 2020. -/
theorem claim_C8_cex :
    (Main.add_valuation1_col [instRow]).map Main.ValRow.valuation =
        [PVal.num 150] ∧
      PVal.num 150 ≠ PVal.num 2020 := by
  constructor
  · simp [Main.add_valuation1_col, instRow, padd]
    norm_num
  · intro hcon
    rw [PVal.num.injEq] at hcon
    norm_num at hcon

/-- C8 (amended): for a row with numeric CashFlows, Cash and
LongTermDebt, the etl pipeline's valuation cell equals
EARNINGS_MULTIPLIER * CashFlows + Cash - LongTermDebt (with the
hard-coded multiplier 20), while the main script's legacy valuation
cell equals CashFlows + Cash. -/
theorem claim_C8_amended (t : List MetricsRow) (i : Nat) (r : MetricsRow)
    (cf c d : ℚ) (ht : t[i]? = some r) (h1 : r.CashFlows = PVal.num cf)
    (h2 : r.Cash = PVal.num c) (h3 : r.LongTermDebt = PVal.num d) :
    ((EtlPipeline.add_extra_columns t)[i]?).map
        EtlPipeline.ExtRow.valuation =
        some (PVal.num (EtlPipeline.EARNINGS_MULTIPLIER * cf + c - d)) ∧
      ((Main.add_valuation1_col t)[i]?).map Main.ValRow.valuation =
        some (PVal.num (cf + c)) := by
  constructor
  · simp only [EtlPipeline.add_extra_columns, List.getElem?_map, ht,
      Option.map_some']
    simp [EtlPipeline.valuationOf, h1, h2, h3, pmul, padd, psub, pneg,
      EtlPipeline.EARNINGS_MULTIPLIER]
    ring
  · simp only [Main.add_valuation1_col, List.getElem?_map, ht,
      Option.map_some']
    simp [padd, h1, h2]

/-- Concrete instance of C8 (amended) at the claim's inputs: the etl
valuation is exactly 2020 and the main-script valuation is 150. -/
theorem claim_C8_witness :
    ([instRow] : List MetricsRow)[0]? = some instRow ∧
      instRow.CashFlows = PVal.num 100 ∧ instRow.Cash = PVal.num 50 ∧
      instRow.LongTermDebt = PVal.num 30 ∧
      ((EtlPipeline.add_extra_columns [instRow])[0]?).map
          EtlPipeline.ExtRow.valuation = some (PVal.num 2020) ∧
      ((Main.add_valuation1_col [instRow])[0]?).map Main.ValRow.valuation =
        some (PVal.num 150) := by
  have h := claim_C8_amended [instRow] 0 instRow 100 50 30 rfl rfl rfl rfl
  refine ⟨rfl, rfl, rfl, rfl, ?_, ?_⟩
  · exact h.1.trans (by norm_num [EtlPipeline.EARNINGS_MULTIPLIER])
  · exact h.2.trans (by norm_num)
